import Mathlib

/-!
Formal model of the cricket-auction-hub tournament management front end.

The repository is a React + Supabase application. Its state-changing logic
lives in form handlers inside the page/modal components; the persistent
store is a relational database mutated through typed insert/update calls
filtered by equality predicates. We embed that logic shallowly:

* each relation (`auction_timer`, `tournaments`, `auction_config`,
  `tournament_captain`, `teams`) becomes a list of row structures;
* each handler (`handleSubmit` of BidTimerConfigModal, `handleToggleVoting`,
  `handleDelete` of CategoryConfigModal, `handleCreateTeam`,
  `handleCreateCaptain`, the page `fetchData` functions) becomes a pure
  function from the relevant inputs and store to a result describing the
  new store contents, the notification (toast) raised, and the navigation
  performed;
* the JavaScript numeric-parsing builtins `parseInt` and `parseFloat`,
  on which the validation guards rely, are modelled exactly on their
  string-processing behaviour, with exact arithmetic (`Int` for
  `parseInt`, exact decimals mantissa × 10^exponent for `parseFloat`)
  standing in for IEEE doubles (the claims examined depend only on
  membership in small ranges and on signs, where exact and floating
  evaluation agree).

Row identifiers (UUIDs in the database) are abstracted as naturals.
-/

/-- Notification raised through the `toast` hook: title, description and
optional variant (the code uses `variant: "destructive"` for errors). -/
structure Toast where
  title : String
  description : String
  variant : Option String
  deriving DecidableEq, Repr

/-! ### JavaScript numeric parsing

`parseInt(s)` (no radix argument): skip leading whitespace, read an
optional sign, detect a `0x`/`0X` prefix (hexadecimal) and otherwise use
radix 10, then read the longest run of digits of that radix; the result
is NaN when the run is empty. We return `Option Int`, `none` for NaN.

`parseFloat(s)`: skip leading whitespace, read an optional sign, then
either the literal `Infinity` or a decimal literal
`digits [. digits] [e|E [sign] digits]` taken as the longest valid
prefix; NaN when no digit is found. We return a `JSFloat`, with finite
values held as exact decimals. -/

/-- Value of a decimal digit character, `none` for other characters. -/
def decDigit? (c : Char) : Option Nat :=
  if c.isDigit then some (c.toNat - 48) else none

/-- Value of a hexadecimal digit character, `none` for other characters. -/
def hexDigit? (c : Char) : Option Nat :=
  if c.isDigit then some (c.toNat - 48)
  else if 'a' ≤ c ∧ c ≤ 'f' then some (c.toNat - 87)
  else if 'A' ≤ c ∧ c ≤ 'F' then some (c.toNat - 55)
  else none

/-- Digit test for the radix used by `parseInt` (10 or 16). -/
def isRadixDigit (base : Nat) (c : Char) : Bool :=
  if base = 16 then (hexDigit? c).isSome else c.isDigit

/-- Numeric value of a digit string in the given radix. -/
def digitsVal (base : Nat) (cs : List Char) : Nat :=
  cs.foldl (fun a c => base * a + ((if base = 16 then hexDigit? c else decDigit? c).getD 0)) 0

/-- Model of JavaScript `parseInt(s)` with no radix argument; `none` is NaN. -/
def parseIntJS (s : String) : Option Int :=
  let cs := s.toList.dropWhile Char.isWhitespace
  let sgn : Int := match cs with
    | '-' :: _ => -1
    | _ => 1
  let cs1 := match cs with
    | '-' :: r => r
    | '+' :: r => r
    | r => r
  let base : Nat := match cs1 with
    | '0' :: 'x' :: _ => 16
    | '0' :: 'X' :: _ => 16
    | _ => 10
  let cs2 := match cs1 with
    | '0' :: 'x' :: r => if base = 16 then r else cs1
    | '0' :: 'X' :: r => if base = 16 then r else cs1
    | r => r
  let ds := cs2.takeWhile (isRadixDigit base)
  if ds.isEmpty then none else some (sgn * (digitsVal base ds : Int))

/-- Result of `parseFloat`: NaN, signed infinity, or a finite value
modelled as the exact decimal `m * 10 ^ e` (mantissa and power of ten
kept unevaluated, so comparisons against zero reduce to the mantissa
sign). -/
inductive JSFloat where
  | nan : JSFloat
  | inf : JSFloat
  | ninf : JSFloat
  | fin (m : Int) (e : Int) : JSFloat
  deriving DecidableEq, Repr

/-- Evaluation of the JavaScript comparison `x <= 0` on a parse result:
NaN compares false, and `m * 10 ^ e ≤ 0` iff `m ≤ 0`. -/
def JSFloat.leZero : JSFloat → Bool
  | .nan => false
  | .inf => false
  | .ninf => true
  | .fin m _ => decide (m ≤ 0)

/-- Exponent denoted by the `e`/`E` suffix of a decimal literal; `0` when
the suffix is absent or has no digits (in which case `parseFloat` stops
before the `e`). -/
def expSuffixVal (cs : List Char) : Int :=
  match cs with
  | 'e' :: r | 'E' :: r =>
    let sgn : Int := match r with
      | '-' :: _ => -1
      | _ => 1
    let r1 := match r with
      | '-' :: t => t
      | '+' :: t => t
      | t => t
    let ds := r1.takeWhile Char.isDigit
    if ds.isEmpty then 0 else sgn * (digitsVal 10 ds : Int)
  | _ => 0

/-- Unsigned decimal literal parsed as the longest valid prefix of `cs`:
integer digits, optional fraction, optional exponent. The result is the
mantissa (all parsed digits) and the power of ten scaling it; `none` when
neither integer nor fraction digits are present. -/
def parseDecimal (cs : List Char) : Option (Nat × Int) :=
  let ip := cs.takeWhile Char.isDigit
  let r1 := cs.dropWhile Char.isDigit
  let fp := match r1 with
    | '.' :: r => r.takeWhile Char.isDigit
    | _ => []
  let r2 := match r1 with
    | '.' :: r => r.dropWhile Char.isDigit
    | r => r
  if ip.isEmpty && fp.isEmpty then none
  else some (digitsVal 10 (ip ++ fp), expSuffixVal r2 - (fp.length : Int))

/-- Character list of the literal accepted by `parseFloat` for infinity. -/
def infinityChars : List Char := ['I', 'n', 'f', 'i', 'n', 'i', 't', 'y']

/-- Model of JavaScript `parseFloat(s)` with exact decimal arithmetic. -/
def parseFloatJS (s : String) : JSFloat :=
  let cs := s.toList.dropWhile Char.isWhitespace
  let neg : Bool := decide (cs.head? = some '-')
  let cs1 := if cs.head? = some '-' ∨ cs.head? = some '+' then cs.tail else cs
  if infinityChars.isPrefixOf cs1 then (if neg then JSFloat.ninf else JSFloat.inf)
  else
    match parseDecimal cs1 with
    | none => JSFloat.nan
    | some me => JSFloat.fin (if neg then -(me.1 : Int) else (me.1 : Int)) me.2

/-- Model of the JavaScript `String.prototype.trim()`: leading and
trailing whitespace removed (kept kernel-reducible, unlike
`String.trim`). -/
def trimJS (s : String) : String :=
  ((s.toList.dropWhile Char.isWhitespace).reverse.dropWhile Char.isWhitespace).reverse.asString

/-! ### Relation rows

Fields not read or written by any of the handlers examined (`created_by`
on `auction_timer`, `updated_at` timestamps, `logo_url` on teams) are
omitted; `created_at` timestamps are kept where a query orders by them.
Identifiers are naturals standing in for UUIDs. -/

/-- Row of the `auction_timer` relation (id, tournament_id, bid_time). -/
structure TimerRow where
  id : Nat
  tournament_id : Nat
  bid_time : Int
  deriving DecidableEq, Repr

/-- Row of the `tournaments` relation, restricted to the columns the
examined pages select. -/
structure TournamentRow where
  id : Nat
  name : String
  organizer_id : Nat
  number_of_teams : Nat
  team_budget : Rat
  captain_voting_enabled : Bool
  is_voting_live : Bool
  deriving DecidableEq, Repr

/-- Row of the `tournament_captain` relation. -/
structure CaptainRow where
  id : Nat
  tournament_id : Nat
  name : String
  mobile : String
  photo_url : Option String
  votes : Int
  is_active : Bool
  created_by : Option Nat
  created_at : Nat
  deriving DecidableEq, Repr

/-- Row of the `auction_config` relation. -/
structure ConfigRow where
  id : Nat
  tournament_id : Nat
  category : String
  max_players : Int
  base_price : Rat
  is_active : Bool
  created_at : Nat
  deriving DecidableEq, Repr

/-- Row of the `teams` relation. The budget is stored as the value the
client computed with `parseFloat` (a `JSFloat`). -/
structure TeamRow where
  id : Nat
  tournament_id : Nat
  name : String
  captain_id : Option Nat
  budget_remaining : JSFloat
  owner_id : Option Nat
  created_at : Nat
  deriving DecidableEq, Repr

/-- Row of the `profiles` relation as selected by the captain search. -/
structure PlayerProfile where
  id : Nat
  user_id : Nat
  full_name : String
  mobile : String
  deriving DecidableEq, Repr

/-! ### BidTimerConfigModal (src/unnamed/part_000)

`fetchTimer` runs on modal open: `select * from auction_timer where
tournament_id = ? maybeSingle()`; `handleSubmit` validates
`parseInt(bidTime)` against [5,120] and then updates by the fetched id or
inserts a new row. -/

/-- Query issued by `fetchTimer`: the (unique-constrained) timer row of a
tournament, if any. -/
def fetchTimer (db : List TimerRow) (tid : Nat) : Option TimerRow :=
  db.find? (fun r => r.tournament_id = tid)

/-- Toast raised when the bid-time validation fails. -/
def timerValidationToast : Toast :=
  ⟨"Validation Error", "Bid time must be between 5 and 120 seconds.", some ("destructive")⟩

/-- Toast raised when the timer configuration is saved. -/
def timerSavedToast : Toast :=
  ⟨"Success", "Bid timer configuration saved.", none⟩

/-- Result of a bid-timer form submission: resulting relation contents,
toast raised, whether any write was issued, and whether the write was the
update branch (as opposed to the insert branch). -/
structure TimerSubmitResult where
  db : List TimerRow
  toast : Toast
  wrote : Bool
  usedUpdate : Bool
  deriving DecidableEq, Repr

/-- Model of `handleSubmit` of BidTimerConfigModal. `existingId` is the
component state set by `fetchTimer`; `freshId` is the id the store would
assign to an inserted row. -/
def handleSubmitTimer (db : List TimerRow) (tournamentId : Nat) (freshId : Nat)
    (existingId : Option Nat) (bidTime : String) : TimerSubmitResult :=
  match parseIntJS bidTime with
  | none => ⟨db, timerValidationToast, false, false⟩
  | some n =>
    if n < 5 ∨ 120 < n then ⟨db, timerValidationToast, false, false⟩
    else
      match existingId with
      | some i =>
        ⟨db.map (fun r => if r.id = i then { r with bid_time := n } else r),
         timerSavedToast, true, true⟩
      | none =>
        ⟨db ++ [⟨freshId, tournamentId, n⟩], timerSavedToast, true, false⟩

/-- One open-modal-and-submit cycle: `fetchTimer` populates `existingId`,
then `handleSubmit` runs on it. -/
def openAndSubmitTimer (db : List TimerRow) (tid : Nat) (freshId : Nat)
    (bidTime : String) : TimerSubmitResult :=
  handleSubmitTimer db tid freshId ((fetchTimer db tid).map (fun r => r.id)) bidTime

/-- Number of `auction_timer` rows belonging to a tournament. -/
def countTimerRows (db : List TimerRow) (tid : Nat) : Nat :=
  (db.filter (fun r => r.tournament_id = tid)).length

/-! ### TournamentActionMenu.handleToggleVoting -/

/-- Toast raised by `handleToggleVoting`; `isVotingLive` is the flag value
before the toggle. -/
def votingToast (isVotingLive : Bool) : Toast :=
  if isVotingLive then ⟨"Voting Stopped", "Captain voting has been stopped.", none⟩
  else ⟨"Voting Started", "Captain voting is now live!", none⟩

/-- Model of `handleToggleVoting`: `update tournaments set is_voting_live
= not isVotingLive where id = tournamentId`, plus the toast. The
`isVotingLive` argument is the component prop holding the current flag. -/
def handleToggleVoting (db : List TournamentRow) (tournamentId : Nat)
    (isVotingLive : Bool) : List TournamentRow × Toast :=
  (db.map (fun t =>
      if t.id = tournamentId then { t with is_voting_live := !isVotingLive } else t),
   votingToast isVotingLive)

/-- Lookup of a tournament row by id (the `.eq("id", ...).single()` query). -/
def getTournament (db : List TournamentRow) (tid : Nat) : Option TournamentRow :=
  db.find? (fun t => t.id = tid)

/-! ### ViewCaptainVotes -/

/-- Model of `Math.max(...captains.map(c => c.votes), 1)` guarded by
`captains.length > 0` (ViewCaptainVotes line 68). -/
def maxVotes (captains : List CaptainRow) : Int :=
  if 0 < captains.length then (captains.map (fun c => c.votes)).foldr max 1 else 1

/-- Model of `captains.reduce((sum, c) => sum + c.votes, 0)`. -/
def totalVotes (captains : List CaptainRow) : Int :=
  captains.foldl (fun sum c => sum + c.votes) 0

/-- Query issued by ViewCaptainVotes.fetchData: captains of the
tournament with `is_active = true`, ordered by `votes` descending. -/
def fetchCaptainVotes (db : List CaptainRow) (tid : Nat) : List CaptainRow :=
  (db.filter (fun c => c.tournament_id = tid ∧ c.is_active = true)).mergeSort
    (fun a b => b.votes ≤ a.votes)

/-! ### CategoryConfigModal -/

/-- Query issued by `fetchConfigs`: active configs of the tournament,
ordered by `created_at` ascending. -/
def fetchConfigs (db : List ConfigRow) (tid : Nat) : List ConfigRow :=
  (db.filter (fun r => r.tournament_id = tid ∧ r.is_active = true)).mergeSort
    (fun a b => a.created_at ≤ b.created_at)

/-- Toast raised by a successful soft delete. -/
def configDeletedToast : Toast := ⟨"Success", "Category deleted.", none⟩

/-- Model of `handleDelete`: `update auction_config set is_active = false
where id = configId`, plus the toast. -/
def handleDeleteConfig (db : List ConfigRow) (configId : Nat) :
    List ConfigRow × Toast :=
  (db.map (fun r => if r.id = configId then { r with is_active := false } else r),
   configDeletedToast)

/-- Lookup of a config row by id. -/
def getConfigById (db : List ConfigRow) (configId : Nat) : Option ConfigRow :=
  db.find? (fun r => r.id = configId)

/-! ### CreateTeams.handleCreateTeam -/

/-- Toast raised when the team name validation fails. -/
def teamNameToast : Toast :=
  ⟨"Validation Error", "Team name is required.", some ("destructive")⟩

/-- Toast raised when the budget validation fails. -/
def teamBudgetToast : Toast :=
  ⟨"Validation Error", "Please enter a valid team budget.", some ("destructive")⟩

/-- Result of a team-creation submission. -/
structure CreateTeamResult where
  db : List TeamRow
  toast : Toast
  inserted : Bool
  deriving DecidableEq, Repr

/-- Model of `handleCreateTeam` (CreateTeams lines 179-233). Guards in
source order: `!teamName.trim()` rejects, then `!teamBudget ||
parseFloat(teamBudget) <= 0` rejects (with NaN comparing false),
otherwise one row is inserted. `freshId` and `now` are the id and
`created_at` the store assigns to the inserted row. -/
def handleCreateTeam (db : List TeamRow) (tournamentId : Nat) (userId : Option Nat)
    (teamName teamBudget : String) (selectedCaptain : Option PlayerProfile)
    (freshId now : Nat) : CreateTeamResult :=
  if trimJS teamName = "" then ⟨db, teamNameToast, false⟩
  else if teamBudget = "" ∨ (parseFloatJS teamBudget).leZero = true then
    ⟨db, teamBudgetToast, false⟩
  else
    ⟨db ++ [⟨freshId, tournamentId, trimJS teamName,
             selectedCaptain.map (fun p => p.user_id), parseFloatJS teamBudget,
             userId, now⟩],
     ⟨"Success", "Team \"" ++ teamName ++ "\" created successfully.", none⟩,
     true⟩

/-! ### HTML number input values

The budget field is rendered as `<Input type="number" .../>`; the HTML
value sanitization algorithm for a number input leaves `teamBudget`
either empty or a valid floating-point number string: an optional `-`,
one or more digits, optionally `.` followed by one or more digits,
optionally `e`/`E`, an optional sign and one or more digits. -/

/-- Nonempty all-digit character list. -/
def allDigits (cs : List Char) : Bool :=
  !cs.isEmpty && cs.all Char.isDigit

/-- Optionally signed nonempty digit run (exponent body). -/
def validSignedDigits (cs : List Char) : Bool :=
  match cs with
  | '+' :: r => allDigits r
  | '-' :: r => allDigits r
  | r => allDigits r

/-- Optional exponent suffix of a valid floating-point number string. -/
def validExpPart (cs : List Char) : Bool :=
  match cs with
  | [] => true
  | 'e' :: r => validSignedDigits r
  | 'E' :: r => validSignedDigits r
  | _ => false

/-- Unsigned part of a valid floating-point number string. -/
def validUnsigned (cs : List Char) : Bool :=
  let ip := cs.takeWhile Char.isDigit
  let r1 := cs.dropWhile Char.isDigit
  !ip.isEmpty &&
    (match r1 with
     | '.' :: r2 =>
       let fp := r2.takeWhile Char.isDigit
       let r3 := r2.dropWhile Char.isDigit
       !fp.isEmpty && validExpPart r3
     | r => validExpPart r)

/-- Valid floating-point number string per the HTML specification (the
set of nonempty values a number input can hold): an optional leading
minus sign followed by a valid unsigned part. -/
def isValidFloatString (s : String) : Bool :=
  if s.toList.head? = some '-' then validUnsigned s.toList.tail
  else validUnsigned s.toList

/-- Value a number input can hold: empty, or a valid float string. -/
def isNumberInputValue (s : String) : Prop :=
  s = "" ∨ isValidFloatString s = true

/-! ### CreateCaptains.handleCreateCaptain (second component of
src/src/pages/ViewTeams.tsx) -/

/-- Toast raised when name or mobile is blank. -/
def captainRequiredToast : Toast :=
  ⟨"Validation Error", "Name and mobile number are required.", some ("destructive")⟩

/-- Toast raised when the mobile number is shorter than 10 characters. -/
def captainMobileToast : Toast :=
  ⟨"Validation Error", "Please enter a valid mobile number.", some ("destructive")⟩

/-- Result of a captain-creation submission. -/
structure CreateCaptainResult where
  db : List CaptainRow
  toast : Toast
  inserted : Bool
  deriving DecidableEq, Repr

/-- Model of `handleCreateCaptain`. Guards in source order:
`!captainName.trim() || !captainMobile.trim()` rejects, then
`captainMobile.length < 10` rejects, otherwise one row is inserted
(votes and is_active take the schema defaults 0 and true). -/
def handleCreateCaptain (db : List CaptainRow) (tournamentId : Nat)
    (userId : Option Nat) (captainName captainMobile : String)
    (photoPreview : Option String) (freshId now : Nat) : CreateCaptainResult :=
  if trimJS captainName = "" ∨ trimJS captainMobile = "" then
    ⟨db, captainRequiredToast, false⟩
  else if captainMobile.length < 10 then
    ⟨db, captainMobileToast, false⟩
  else
    ⟨db ++ [⟨freshId, tournamentId, trimJS captainName, trimJS captainMobile,
             photoPreview, 0, true, userId, now⟩],
     ⟨"Success", "Captain \"" ++ captainName ++ "\" added successfully.", none⟩,
     true⟩

/-! ### CreateTeams rendering of the creation form / completion banner -/

/-- Section of the CreateTeams page controlled by `canCreateMore`. -/
inductive TeamsView where
  | creationForm : TeamsView
  | completionBanner (message : String) : TeamsView
  deriving DecidableEq, Repr

/-- Model of `const canCreateMore = teams.length < tournament.number_of_teams`. -/
def canCreateMore (tournament : TournamentRow) (teams : List TeamRow) : Bool :=
  teams.length < tournament.number_of_teams

/-- Text of the completion banner (CreateTeams lines 335-343). -/
def allTeamsBanner (n : Nat) : String :=
  "All " ++ toString n ++ " teams have been created!"

/-- Rendered section: the creation form when `canCreateMore`, otherwise
the completion banner. -/
def renderTeamsSection (tournament : TournamentRow) (teams : List TeamRow) : TeamsView :=
  if canCreateMore tournament teams then TeamsView.creationForm
  else TeamsView.completionBanner (allTeamsBanner tournament.number_of_teams)

/-! ### Page-load outcomes (CreateTeams.fetchTournamentAndTeams and
CreateCaptains.fetchData) -/

/-- Outcome of a page load. `storeError` covers any query failure
(`.single()` raises when the tournament is absent); in `accessDenied` and
`notAvailable` the page toasts, navigates to `navTo` and returns before
setting any state; only `loaded` sets the page state. -/
inductive PageOutcome (σ : Type) where
  | storeError : PageOutcome σ
  | accessDenied (toast : Toast) (navTo : String) : PageOutcome σ
  | notAvailable (toast : Toast) (navTo : String) : PageOutcome σ
  | loaded (state : σ) : PageOutcome σ
  deriving DecidableEq, Repr

/-- Access-denied toast of the team-management page. -/
def accessDeniedTeamsToast : Toast :=
  ⟨"Access Denied", "Only the organizer can manage teams.", some ("destructive")⟩

/-- Access-denied toast of the captain-management page. -/
def accessDeniedCaptainsToast : Toast :=
  ⟨"Access Denied", "Only the organizer can manage captains.", some ("destructive")⟩

/-- Toast raised when captain voting is not enabled. -/
def votingNotAvailableToast : Toast :=
  ⟨"Not Available", "Captain voting is not enabled for this tournament.", some ("destructive")⟩

/-- Navigation target of the denial branches. -/
def tournamentPath (tid : Nat) : String :=
  "/tournaments/" ++ toString tid

/-- Teams of a tournament ordered by `created_at` ascending. -/
def teamsOfTournament (teams : List TeamRow) (tid : Nat) : List TeamRow :=
  (teams.filter (fun r => r.tournament_id = tid)).mergeSort
    (fun a b => a.created_at ≤ b.created_at)

/-- Active captains of a tournament ordered by `created_at` descending. -/
def captainsAdminList (captains : List CaptainRow) (tid : Nat) : List CaptainRow :=
  (captains.filter (fun c => c.tournament_id = tid ∧ c.is_active = true)).mergeSort
    (fun a b => b.created_at ≤ a.created_at)

/-- Model of CreateTeams.fetchTournamentAndTeams: fetch the tournament by
id, run the organizer check `if (user && tournamentData.organizer_id !==
user.id)`, then fetch the teams. -/
def fetchTournamentAndTeams (tournaments : List TournamentRow)
    (teams : List TeamRow) (tid : Nat) (user : Option Nat) :
    PageOutcome (TournamentRow × List TeamRow) :=
  match getTournament tournaments tid with
  | none => PageOutcome.storeError
  | some t =>
    match user with
    | some u =>
      if t.organizer_id ≠ u then
        PageOutcome.accessDenied accessDeniedTeamsToast (tournamentPath tid)
      else PageOutcome.loaded (t, teamsOfTournament teams tid)
    | none => PageOutcome.loaded (t, teamsOfTournament teams tid)

/-- Model of CreateCaptains.fetchData: fetch the tournament by id, run
the organizer check, then the `captain_voting_enabled` check, then fetch
the captains. -/
def fetchCaptainsPage (tournaments : List TournamentRow)
    (captains : List CaptainRow) (tid : Nat) (user : Option Nat) :
    PageOutcome (TournamentRow × List CaptainRow) :=
  match getTournament tournaments tid with
  | none => PageOutcome.storeError
  | some t =>
    match user with
    | some u =>
      if t.organizer_id ≠ u then
        PageOutcome.accessDenied accessDeniedCaptainsToast (tournamentPath tid)
      else if t.captain_voting_enabled = false then
        PageOutcome.notAvailable votingNotAvailableToast (tournamentPath tid)
      else PageOutcome.loaded (t, captainsAdminList captains tid)
    | none =>
      if t.captain_voting_enabled = false then
        PageOutcome.notAvailable votingNotAvailableToast (tournamentPath tid)
      else PageOutcome.loaded (t, captainsAdminList captains tid)

/-! ## Verification

Helper lemmas are shared; each claim has exactly one named theorem (and
a witness where the theorem carries hypotheses). -/

/-- Folding `max` from initial value 1 never drops below 1. -/
theorem one_le_foldr_max (l : List Int) : 1 ≤ l.foldr max 1 := by
  induction l with
  | nil => exact le_refl 1
  | cons x xs ih => exact le_max_of_le_right ih

/-- The vote-sum fold equals the sum of the mapped votes. -/
theorem foldl_votes_eq_sum (l : List CaptainRow) (a : Int) :
    l.foldl (fun sum c => sum + c.votes) a = a + (l.map (fun c => c.votes)).sum := by
  induction l generalizing a with
  | nil => simp
  | cons x xs ih => simp [List.foldl_cons, ih, add_assoc]

/-- C4: for every captain list shown in the vote-results view, the
computed `maxVotes` is at least 1 (hence nonzero, so the progress-bar
normalization `votes / maxVotes` never divides by zero), and
`totalVotes` equals the sum of all listed captains' votes. -/
theorem maxVotes_floor_totalVotes_sum (captains : List CaptainRow) :
    1 ≤ maxVotes captains ∧ maxVotes captains ≠ 0 ∧
      totalVotes captains = (captains.map (fun c => c.votes)).sum := by
  have h1 : 1 ≤ maxVotes captains := by
    unfold maxVotes
    by_cases h : 0 < captains.length
    · rw [if_pos h]; exact one_le_foldr_max _
    · rw [if_neg h]
  refine ⟨h1, by omega, ?_⟩
  unfold totalVotes
  simpa using foldl_votes_eq_sum captains 0

/-- C9: while the team count is strictly below `number_of_teams` the
creation form is shown; once the count reaches `number_of_teams` the
form is replaced by the completion banner, whose text for
`number_of_teams = 8` is exactly "All 8 teams have been created!". -/
theorem teams_capacity_banner (t : TournamentRow) (teams : List TeamRow) :
    (teams.length < t.number_of_teams →
      renderTeamsSection t teams = TeamsView.creationForm)
    ∧ (t.number_of_teams ≤ teams.length →
      renderTeamsSection t teams =
        TeamsView.completionBanner
          ("All " ++ toString t.number_of_teams ++ " teams have been created!"))
    ∧ allTeamsBanner 8 = "All 8 teams have been created!" := by
  refine ⟨fun h => ?_, fun h => ?_, rfl⟩
  · unfold renderTeamsSection canCreateMore
    simp [h]
  · unfold renderTeamsSection canCreateMore allTeamsBanner
    simp [Nat.not_lt.mpr h]

/-- Witness for C9 at concrete inputs: with `number_of_teams = 8`, zero
teams show the creation form and eight teams show the banner
"All 8 teams have been created!". -/
theorem teams_capacity_banner_witness :
    renderTeamsSection ⟨1, "T", 2, 8, 100, false, false⟩ [] = TeamsView.creationForm
    ∧ renderTeamsSection ⟨1, "T", 2, 8, 100, false, false⟩
        (List.replicate 8 ⟨0, 1, "A", none, JSFloat.fin 1 0, none, 0⟩) =
      TeamsView.completionBanner ("All 8 teams have been created!") :=
  ⟨(teams_capacity_banner ⟨1, "T", 2, 8, 100, false, false⟩ []).1 (by decide),
   (teams_capacity_banner ⟨1, "T", 2, 8, 100, false, false⟩
      (List.replicate 8 ⟨0, 1, "A", none, JSFloat.fin 1 0, none, 0⟩)).2.1 (by decide)⟩

/-- C1: a bid-timer submission whose entered time does not parse to an
integer in [5, 120] (NaN included) is rejected with the validation toast
and leaves the `auction_timer` relation untouched: no write occurs. -/
theorem timer_invalid_input_rejected (db : List TimerRow) (tid freshId : Nat)
    (existingId : Option Nat) (bidTime : String)
    (h : ∀ n : Int, parseIntJS bidTime = some n → n < 5 ∨ 120 < n) :
    handleSubmitTimer db tid freshId existingId bidTime =
      ⟨db, timerValidationToast, false, false⟩ := by
  cases hp : parseIntJS bidTime with
  | none => simp [handleSubmitTimer, hp]
  | some n =>
    have hn := h n hp
    simp [handleSubmitTimer, hp, hn]

/-- Witness for C1: non-numeric input "abc" and out-of-range inputs "4"
and "121" are all rejected without touching a one-row store. -/
theorem timer_invalid_input_rejected_witness :
    handleSubmitTimer [⟨7, 1, 10⟩] 1 9 (some 7) ("abc") =
      ⟨[⟨7, 1, 10⟩], timerValidationToast, false, false⟩
    ∧ handleSubmitTimer [⟨7, 1, 10⟩] 1 9 (some 7) ("4") =
      ⟨[⟨7, 1, 10⟩], timerValidationToast, false, false⟩
    ∧ handleSubmitTimer [⟨7, 1, 10⟩] 1 9 none ("121") =
      ⟨[⟨7, 1, 10⟩], timerValidationToast, false, false⟩ :=
  ⟨timer_invalid_input_rejected _ _ _ _ _
      (fun n hn => by rw [(by decide : parseIntJS ("abc") = none)] at hn; cases hn),
   timer_invalid_input_rejected _ _ _ _ _
      (fun n hn => by rw [(by decide : parseIntJS ("4") = some 4)] at hn; cases hn; decide),
   timer_invalid_input_rejected _ _ _ _ _
      (fun n hn => by rw [(by decide : parseIntJS ("121") = some 121)] at hn; cases hn; decide)⟩

/-- Keyed update commutes with lookup by the same key (tournaments). -/
theorem getTournament_update (db : List TournamentRow) (tid : Nat)
    (g : TournamentRow → TournamentRow) (hg : ∀ t, (g t).id = t.id) :
    getTournament (db.map (fun t => if t.id = tid then g t else t)) tid
      = (getTournament db tid).map g := by
  induction db with
  | nil => rfl
  | cons hd tl ih =>
    by_cases h : hd.id = tid
    · simp [getTournament, List.find?_cons, h, hg hd]
    · simpa [getTournament, List.find?_cons, h] using ih

/-- C3: with the stored flag false, `handleToggleVoting` raises the
"Voting Started" toast and persists `is_voting_live = true` on exactly
the tournament row keyed by id (all other rows survive); toggling again
raises "Voting Stopped" and restores the original row — the double
toggle is the identity on the flag. -/
theorem toggle_voting_involution (db : List TournamentRow) (tid : Nat)
    (t : TournamentRow) (hfind : getTournament db tid = some t)
    (hlive : t.is_voting_live = false) :
    (handleToggleVoting db tid false).2
      = ⟨"Voting Started", "Captain voting is now live!", none⟩
    ∧ getTournament (handleToggleVoting db tid false).1 tid
      = some { t with is_voting_live := true }
    ∧ (∀ s ∈ db, s.id ≠ tid → s ∈ (handleToggleVoting db tid false).1)
    ∧ (handleToggleVoting (handleToggleVoting db tid false).1 tid true).2
      = ⟨"Voting Stopped", "Captain voting has been stopped.", none⟩
    ∧ getTournament (handleToggleVoting (handleToggleVoting db tid false).1 tid true).1 tid
      = some t := by
  simp only [handleToggleVoting, Bool.not_false, Bool.not_true, votingToast]
  refine ⟨rfl, ?_, ?_, rfl, ?_⟩
  · rw [getTournament_update db tid
      (fun s => { s with is_voting_live := true }) (fun s => rfl), hfind]
    rfl
  · intro s hs hne
    exact List.mem_map.mpr ⟨s, hs, by simp [hne]⟩
  · rw [getTournament_update _ tid
        (fun s => { s with is_voting_live := false }) (fun s => rfl),
      getTournament_update db tid
        (fun s => { s with is_voting_live := true }) (fun s => rfl), hfind]
    cases t
    simp_all

/-- Witness for C3 at a concrete store: one tournament with the flag
false; the first toggle persists true, the second restores the row. -/
theorem toggle_voting_involution_witness :
    getTournament (handleToggleVoting [⟨1, "T", 2, 8, 100, true, false⟩] 1 false).1 1
      = some ⟨1, "T", 2, 8, 100, true, true⟩
    ∧ (handleToggleVoting [⟨1, "T", 2, 8, 100, true, false⟩] 1 false).2
      = ⟨"Voting Started", "Captain voting is now live!", none⟩
    ∧ getTournament
        (handleToggleVoting (handleToggleVoting [⟨1, "T", 2, 8, 100, true, false⟩] 1 false).1
          1 true).1 1
      = some ⟨1, "T", 2, 8, 100, true, false⟩ := by
  have h := toggle_voting_involution [⟨1, "T", 2, 8, 100, true, false⟩] 1
    ⟨1, "T", 2, 8, 100, true, false⟩ rfl rfl
  exact ⟨h.2.1, h.1, h.2.2.2.2⟩

/-- Keyed update commutes with lookup by the same key (auction_config). -/
theorem getConfigById_update (db : List ConfigRow) (i : Nat)
    (g : ConfigRow → ConfigRow) (hg : ∀ r, (g r).id = r.id) :
    getConfigById (db.map (fun r => if r.id = i then g r else r)) i
      = (getConfigById db i).map g := by
  induction db with
  | nil => rfl
  | cons hd tl ih =>
    by_cases h : hd.id = i
    · simp [getConfigById, List.find?_cons, h, hg hd]
    · simpa [getConfigById, List.find?_cons, h] using ih

/-- C6: the soft delete updates only `is_active` (to false) of the row
with the given id — its other fields and every other row survive, the
relation keeps its size, the row stays retrievable by id — and no row
with that id appears in the active listing afterwards. -/
theorem config_soft_delete_frame (db : List ConfigRow) (i : Nat) (r : ConfigRow)
    (hfind : getConfigById db i = some r) :
    (handleDeleteConfig db i).2 = configDeletedToast
    ∧ getConfigById (handleDeleteConfig db i).1 i = some { r with is_active := false }
    ∧ (∀ s ∈ db, s.id ≠ i → s ∈ (handleDeleteConfig db i).1)
    ∧ (handleDeleteConfig db i).1.length = db.length
    ∧ (∀ tid s, s ∈ fetchConfigs (handleDeleteConfig db i).1 tid → s.id ≠ i) := by
  refine ⟨rfl, ?_, ?_, ?_, ?_⟩
  · rw [show (handleDeleteConfig db i).1
        = db.map (fun s => if s.id = i then { s with is_active := false } else s) from rfl,
      getConfigById_update db i (fun s => { s with is_active := false }) (fun s => rfl), hfind]
    rfl
  · intro s hs hne
    exact List.mem_map.mpr ⟨s, hs, by simp [hne]⟩
  · simp [handleDeleteConfig]
  · intro tid s hs
    simp only [fetchConfigs] at hs
    have hs1 := (List.mergeSort_perm _ _).mem_iff.mp hs
    rw [List.mem_filter] at hs1
    obtain ⟨hmem, hpred⟩ := hs1
    have hactive : s.is_active = true := by
      simpa using (of_decide_eq_true hpred).2
    obtain ⟨x, hx, hxe⟩ := List.mem_map.mp hmem
    by_cases hxi : x.id = i
    · rw [if_pos hxi] at hxe
      rw [← hxe] at hactive
      simp at hactive
    · rw [if_neg hxi] at hxe
      rw [← hxe]
      exact hxi

/-- Witness for C6 at a concrete store: deleting the only config keeps
the row (with `is_active` false) retrievable by id and the relation size
unchanged, and the active listing for its tournament is empty. -/
theorem config_soft_delete_frame_witness :
    getConfigById (handleDeleteConfig [⟨3, 1, "Gold", 5, 5000, true, 0⟩] 3).1 3
      = some ⟨3, 1, "Gold", 5, 5000, false, 0⟩
    ∧ (handleDeleteConfig [⟨3, 1, "Gold", 5, 5000, true, 0⟩] 3).1.length = 1
    ∧ (∀ s, s ∈ fetchConfigs (handleDeleteConfig [⟨3, 1, "Gold", 5, 5000, true, 0⟩] 3).1 1
        → s.id ≠ 3) := by
  have h := config_soft_delete_frame [⟨3, 1, "Gold", 5, 5000, true, 0⟩] 3
    ⟨3, 1, "Gold", 5, 5000, true, 0⟩ rfl
  exact ⟨h.2.1, h.2.2.2.1, h.2.2.2.2 1⟩

/-- The timer fetch comes back empty exactly when the tournament has no
timer row. -/
theorem fetchTimer_none_iff (db : List TimerRow) (tid : Nat) :
    fetchTimer db tid = none ↔ countTimerRows db tid = 0 := by
  simp [fetchTimer, countTimerRows, List.find?_eq_none, List.length_eq_zero,
    List.filter_eq_nil_iff]

/-- A fetched timer row witnesses a positive per-tournament row count. -/
theorem fetchTimer_some_count (db : List TimerRow) (tid : Nat) (r : TimerRow)
    (h : fetchTimer db tid = some r) : 1 ≤ countTimerRows db tid := by
  by_contra hc
  have h0 : countTimerRows db tid = 0 := by omega
  rw [← fetchTimer_none_iff] at h0
  rw [h0] at h
  cases h

/-- The update branch of the timer submit preserves the per-tournament
row count (it only changes `bid_time`). -/
theorem countTimerRows_update (db : List TimerRow) (i : Nat) (n : Int) (tid : Nat) :
    countTimerRows (db.map (fun r => if r.id = i then { r with bid_time := n } else r)) tid
      = countTimerRows db tid := by
  unfold countTimerRows
  induction db with
  | nil => rfl
  | cons hd tl ih =>
    simp only [List.map_cons, List.filter_cons]
    have hpres : (if hd.id = i then { hd with bid_time := n } else hd).tournament_id
        = hd.tournament_id := by
      by_cases h : hd.id = i <;> simp [h]
    rw [hpres]
    by_cases h2 : hd.tournament_id = tid
    · simp [h2, ih]
    · simp [h2, ih]

/-- Row counts add over append. -/
theorem countTimerRows_append (db1 db2 : List TimerRow) (tid : Nat) :
    countTimerRows (db1 ++ db2) tid = countTimerRows db1 tid + countTimerRows db2 tid := by
  simp [countTimerRows, List.filter_append]

/-- A valid submission with no fetched row takes the insert branch. -/
theorem handleSubmitTimer_valid_none (db : List TimerRow) (tid f : Nat) (b : String)
    (n : Int) (hp : parseIntJS b = some n) (h5 : 5 ≤ n) (h120 : n ≤ 120) :
    handleSubmitTimer db tid f none b
      = ⟨db ++ [⟨f, tid, n⟩], timerSavedToast, true, false⟩ := by
  simp only [handleSubmitTimer, hp]
  rw [if_neg (by omega : ¬(n < 5 ∨ 120 < n))]

/-- A valid submission with a fetched row takes the update branch keyed
by that row's id. -/
theorem handleSubmitTimer_valid_some (db : List TimerRow) (tid f i : Nat) (b : String)
    (n : Int) (hp : parseIntJS b = some n) (h5 : 5 ≤ n) (h120 : n ≤ 120) :
    handleSubmitTimer db tid f (some i) b
      = ⟨db.map (fun r => if r.id = i then { r with bid_time := n } else r),
         timerSavedToast, true, true⟩ := by
  simp only [handleSubmitTimer, hp]
  rw [if_neg (by omega : ¬(n < 5 ∨ 120 < n))]

/-- One valid open-and-submit cycle leaves exactly one timer row for the
tournament, given the unique-constraint invariant (at most one before). -/
theorem countTimer_after_cycle (db : List TimerRow) (tid f : Nat) (b : String)
    (n : Int) (hp : parseIntJS b = some n) (h5 : 5 ≤ n) (h120 : n ≤ 120)
    (huniq : countTimerRows db tid ≤ 1) :
    countTimerRows (openAndSubmitTimer db tid f b).db tid = 1 := by
  unfold openAndSubmitTimer
  cases hf : fetchTimer db tid with
  | none =>
    rw [Option.map_none', handleSubmitTimer_valid_none db tid f b n hp h5 h120]
    have h0 := (fetchTimer_none_iff db tid).mp hf
    rw [countTimerRows_append, h0]
    simp [countTimerRows]
  | some r =>
    rw [Option.map_some', handleSubmitTimer_valid_some db tid f r.id b n hp h5 h120]
    rw [countTimerRows_update]
    have h1 := fetchTimer_some_count db tid r hf
    omega

/-- C2: two successive open-and-submit cycles of the bid-timer form for
the same tournament leave exactly one `auction_timer` row for it, and
the second cycle goes through the update branch keyed by the fetched
row's id, not the insert branch. -/
theorem timer_upsert_idempotent (db : List TimerRow) (tid f1 f2 : Nat) (b1 b2 : String)
    (n1 n2 : Int) (hp1 : parseIntJS b1 = some n1) (h5a : 5 ≤ n1) (h120a : n1 ≤ 120)
    (hp2 : parseIntJS b2 = some n2) (h5b : 5 ≤ n2) (h120b : n2 ≤ 120)
    (huniq : countTimerRows db tid ≤ 1) :
    countTimerRows (openAndSubmitTimer db tid f1 b1).db tid = 1
    ∧ countTimerRows (openAndSubmitTimer (openAndSubmitTimer db tid f1 b1).db tid f2 b2).db tid = 1
    ∧ (openAndSubmitTimer (openAndSubmitTimer db tid f1 b1).db tid f2 b2).usedUpdate = true := by
  have hc1 := countTimer_after_cycle db tid f1 b1 n1 hp1 h5a h120a huniq
  set D := (openAndSubmitTimer db tid f1 b1).db with hD
  have hc2 := countTimer_after_cycle D tid f2 b2 n2 hp2 h5b h120b (by omega)
  refine ⟨hc1, hc2, ?_⟩
  cases hf : fetchTimer D tid with
  | none =>
    have h0 := (fetchTimer_none_iff D tid).mp hf
    omega
  | some r =>
    unfold openAndSubmitTimer
    rw [hf, Option.map_some', handleSubmitTimer_valid_some D tid f2 r.id b2 n2 hp2 h5b h120b]

/-- Witness for C2: starting from an empty store, submitting "10" and
then "20" for tournament 1 leaves exactly one row and the second cycle
is an update. -/
theorem timer_upsert_idempotent_witness :
    countTimerRows (openAndSubmitTimer (openAndSubmitTimer [] 1 41 ("10")).db 1 42 ("20")).db 1 = 1
    ∧ (openAndSubmitTimer (openAndSubmitTimer [] 1 41 ("10")).db 1 42 ("20")).usedUpdate = true := by
  have h := timer_upsert_idempotent [] 1 41 42 ("10") ("20") 10 20 (by decide) (by decide)
    (by decide) (by decide) (by decide) (by decide) (by decide)
  exact ⟨h.2.1, h.2.2⟩

/-- C5: the vote-results listing is a permutation of the active captains
of the tournament — so it contains exactly those rows — and is ordered
by votes descending (pairwise; ties are unordered by construction). -/
theorem captain_votes_listing (db : List CaptainRow) (tid : Nat) :
    (fetchCaptainVotes db tid).Perm
        (db.filter (fun c => c.tournament_id = tid ∧ c.is_active = true))
    ∧ (∀ c, c ∈ fetchCaptainVotes db tid ↔
        c ∈ db ∧ c.tournament_id = tid ∧ c.is_active = true)
    ∧ List.Pairwise (fun a b => b.votes ≤ a.votes) (fetchCaptainVotes db tid) := by
  refine ⟨List.mergeSort_perm _ _, ?_, ?_⟩
  · intro c
    simp only [fetchCaptainVotes]
    rw [List.Perm.mem_iff (List.mergeSort_perm _ _), List.mem_filter]
    simp
  · have h := @List.sorted_mergeSort CaptainRow
      (fun a b => decide (b.votes ≤ a.votes))
      (by intro a b c h1 h2; simp at h1 h2 ⊢; omega)
      (by intro a b; simp [Bool.or_eq_true]; omega)
      (db.filter (fun c => c.tournament_id = tid ∧ c.is_active = true))
    exact h.imp (fun hab => of_decide_eq_true hab)

/-- C10: when the authenticated user is not the organizer, both the
team-management page load and the captain-management page load resolve
to the access-denied outcome after fetching the tournament: the
"Access Denied" toast, navigation back to the tournament page, and no
page state set (the `accessDenied` outcome carries none). -/
theorem organizer_check_access_denied (tournaments : List TournamentRow)
    (teams : List TeamRow) (captains : List CaptainRow) (tid u : Nat)
    (t : TournamentRow) (hfind : getTournament tournaments tid = some t)
    (hne : t.organizer_id ≠ u) :
    fetchTournamentAndTeams tournaments teams tid (some u)
      = PageOutcome.accessDenied accessDeniedTeamsToast (tournamentPath tid)
    ∧ fetchCaptainsPage tournaments captains tid (some u)
      = PageOutcome.accessDenied accessDeniedCaptainsToast (tournamentPath tid) := by
  constructor
  · simp [fetchTournamentAndTeams, hfind, hne]
  · simp [fetchCaptainsPage, hfind, hne]

/-- Witness for C10: user 3 loading the pages of a tournament organized
by user 2 is denied on both pages. -/
theorem organizer_check_access_denied_witness :
    fetchTournamentAndTeams [⟨1, "T", 2, 8, 100, true, false⟩] [] 1 (some 3)
      = PageOutcome.accessDenied accessDeniedTeamsToast (tournamentPath 1)
    ∧ fetchCaptainsPage [⟨1, "T", 2, 8, 100, true, false⟩] [] 1 (some 3)
      = PageOutcome.accessDenied accessDeniedCaptainsToast (tournamentPath 1) :=
  organizer_check_access_denied _ _ _ 1 3 ⟨1, "T", 2, 8, 100, true, false⟩ rfl (by decide)

/-- C8: a captain-creation submission inserts a row only when the
trimmed name is nonempty and the mobile number has at least 10
characters; otherwise the relation is untouched, no insert occurs and a
validation toast is raised. A successful submission appends exactly one
row. -/
theorem create_captain_validation (db : List CaptainRow) (tid : Nat)
    (user : Option Nat) (name mobile : String) (photo : Option String)
    (freshId now : Nat) :
    ((handleCreateCaptain db tid user name mobile photo freshId now).inserted = true →
      trimJS name ≠ "" ∧ 10 ≤ mobile.length)
    ∧ (¬(trimJS name ≠ "" ∧ 10 ≤ mobile.length) →
      (handleCreateCaptain db tid user name mobile photo freshId now).db = db
      ∧ (handleCreateCaptain db tid user name mobile photo freshId now).inserted = false
      ∧ ((handleCreateCaptain db tid user name mobile photo freshId now).toast
            = captainRequiredToast
        ∨ (handleCreateCaptain db tid user name mobile photo freshId now).toast
            = captainMobileToast))
    ∧ ((handleCreateCaptain db tid user name mobile photo freshId now).inserted = true →
      (handleCreateCaptain db tid user name mobile photo freshId now).db
        = db ++ [⟨freshId, tid, trimJS name, trimJS mobile, photo, 0, true, user, now⟩]) := by
  unfold handleCreateCaptain
  split_ifs with h1 h2
  · refine ⟨fun h => ?_, fun _ => ⟨rfl, rfl, Or.inl rfl⟩, fun h => ?_⟩ <;> simp at h
  · refine ⟨fun h => ?_, fun _ => ⟨rfl, rfl, Or.inr rfl⟩, fun h => ?_⟩ <;> simp at h
  · have hname : trimJS name ≠ "" := fun h => h1 (Or.inl h)
    have hlen : 10 ≤ mobile.length := by omega
    exact ⟨fun _ => ⟨hname, hlen⟩, fun hc => absurd ⟨hname, hlen⟩ hc, fun _ => rfl⟩

/-- Witness for C8: a 5-character mobile number is rejected without an
insert, and a 10-character one is inserted as exactly one appended row. -/
theorem create_captain_validation_witness :
    ((handleCreateCaptain [] 1 (some 2) ("A") ("12345") none 3 4).db = []
      ∧ (handleCreateCaptain [] 1 (some 2) ("A") ("12345") none 3 4).inserted = false
      ∧ ((handleCreateCaptain [] 1 (some 2) ("A") ("12345") none 3 4).toast
            = captainRequiredToast
        ∨ (handleCreateCaptain [] 1 (some 2) ("A") ("12345") none 3 4).toast
            = captainMobileToast))
    ∧ (handleCreateCaptain [] 1 (some 2) ("A") ("1234567890") none 3 4).db
      = [⟨3, 1, trimJS ("A"), trimJS ("1234567890"), none, 0, true, some 2, 4⟩] := by
  constructor
  · exact (create_captain_validation [] 1 (some 2) ("A") ("12345") none 3 4).2.1 (by decide)
  · exact (create_captain_validation [] 1 (some 2) ("A") ("1234567890") none 3 4).2.2 (by decide)

/-- Decimal digits are not whitespace characters. -/
theorem isDigit_not_whitespace (c : Char) (h : c.isDigit = true) :
    c.isWhitespace = false := by
  by_contra hw
  rw [Bool.not_eq_false] at hw
  unfold Char.isWhitespace at hw
  simp only [Bool.or_eq_true, decide_eq_true_eq, or_assoc] at hw
  rcases hw with h1 | h1 | h1 | h1 <;> subst h1 <;> exact absurd h (by decide)

/-- A valid unsigned float literal starts with a decimal digit. -/
theorem validUnsigned_head (cs : List Char) (h : validUnsigned cs = true) :
    ∃ c t, cs = c :: t ∧ c.isDigit = true := by
  cases cs with
  | nil => exact absurd h (by decide)
  | cons c t =>
    refine ⟨c, t, rfl, ?_⟩
    by_contra hc
    rw [Bool.not_eq_true] at hc
    simp only [validUnsigned, List.takeWhile_cons, hc] at h
    simp at h

/-- parseFloat finds a decimal literal whenever the input starts with a
digit. -/
theorem parseDecimal_digit_head (c : Char) (t : List Char) (hc : c.isDigit = true) :
    ∃ me, parseDecimal (c :: t) = some me := by
  unfold parseDecimal
  simp only [List.takeWhile_cons, hc, if_true]
  simp

/-- The literal `Infinity` never prefixes a digit-headed input. -/
theorem isPrefixOf_infinity_digit (c : Char) (t : List Char) (hc : c.isDigit = true) :
    infinityChars.isPrefixOf (c :: t) = false := by
  have hne : ('I' == c) = false := by
    by_cases h : 'I' = c
    · subst h; exact absurd hc (by decide)
    · simp [h]
  simp [infinityChars, List.isPrefixOf, hne]

/-- On a valid floating-point number string — any nonempty value an HTML
number input can hold — `parseFloat` returns a finite value. -/
theorem validFloatString_parses (s : String) (h : isValidFloatString s = true) :
    ∃ m e : Int, parseFloatJS s = JSFloat.fin m e := by
  unfold isValidFloatString at h
  by_cases hneg : s.toList.head? = some '-'
  · rw [if_pos hneg] at h
    obtain ⟨a, l, hal⟩ : ∃ a l, s.toList = a :: l := by
      cases hsl : s.toList with
      | nil => rw [hsl] at hneg; cases hneg
      | cons a l => exact ⟨a, l, rfl⟩
    rw [hal] at h hneg
    simp only [List.head?_cons, Option.some.injEq] at hneg
    subst hneg
    simp only [List.tail_cons] at h
    obtain ⟨c, t, hct, hc⟩ := validUnsigned_head l h
    subst hct
    obtain ⟨me, hme⟩ := parseDecimal_digit_head c t hc
    refine ⟨-(me.1 : Int), me.2, ?_⟩
    unfold parseFloatJS
    rw [hal]
    simp only [List.dropWhile_cons, List.head?_cons, List.tail_cons]
    simp [(by decide : Char.isWhitespace '-' = false),
      isPrefixOf_infinity_digit c t hc, hme]
  · rw [if_neg hneg] at h
    obtain ⟨c, t, hct, hc⟩ := validUnsigned_head _ h
    have hcm : c ≠ '-' := by
      intro hcontra; rw [hcontra] at hc; exact absurd hc (by decide)
    have hcp : c ≠ '+' := by
      intro hcontra; rw [hcontra] at hc; exact absurd hc (by decide)
    obtain ⟨me, hme⟩ := parseDecimal_digit_head c t hc
    refine ⟨(me.1 : Int), me.2, ?_⟩
    unfold parseFloatJS
    rw [hct]
    simp only [List.dropWhile_cons, List.head?_cons, List.tail_cons]
    simp [isDigit_not_whitespace c hc, isPrefixOf_infinity_digit c t hc, hme, hcm, hcp]

/-- C7: under the budget field's number-input sanitization (its value is
empty or a valid float string), a team-creation submission inserts a row
iff the trimmed name is nonempty and the budget parses to a strictly
positive number; a rejected submission leaves the relation untouched and
raises one of the two validation toasts; an accepted one appends exactly
one row. -/
theorem create_team_validation (db : List TeamRow) (tid : Nat) (user : Option Nat)
    (teamName teamBudget : String) (cap : Option PlayerProfile) (freshId now : Nat)
    (hsan : isNumberInputValue teamBudget) :
    ((handleCreateTeam db tid user teamName teamBudget cap freshId now).inserted = true ↔
      trimJS teamName ≠ ""
        ∧ ∃ m e : Int, parseFloatJS teamBudget = JSFloat.fin m e ∧ 0 < m)
    ∧ ((handleCreateTeam db tid user teamName teamBudget cap freshId now).inserted = false →
      (handleCreateTeam db tid user teamName teamBudget cap freshId now).db = db
      ∧ ((handleCreateTeam db tid user teamName teamBudget cap freshId now).toast = teamNameToast
        ∨ (handleCreateTeam db tid user teamName teamBudget cap freshId now).toast
            = teamBudgetToast))
    ∧ ((handleCreateTeam db tid user teamName teamBudget cap freshId now).inserted = true →
      (handleCreateTeam db tid user teamName teamBudget cap freshId now).db
        = db ++ [⟨freshId, tid, trimJS teamName, cap.map (fun p => p.user_id),
                  parseFloatJS teamBudget, user, now⟩]) := by
  unfold handleCreateTeam
  split_ifs with h1 h2
  · refine ⟨⟨fun h => ?_, fun hr => ?_⟩, fun _ => ⟨rfl, Or.inl rfl⟩, fun h => ?_⟩
    · simp at h
    · exact absurd h1 hr.1
    · simp at h
  · refine ⟨⟨fun h => ?_, fun hr => ?_⟩, fun _ => ⟨rfl, Or.inr rfl⟩, fun h => ?_⟩
    · simp at h
    · obtain ⟨hn, m, e, hme, hm⟩ := hr
      rcases h2 with hb | hle
      · rw [hb, (by decide : parseFloatJS ("") = JSFloat.nan)] at hme
        cases hme
      · rw [hme] at hle
        simp [JSFloat.leZero] at hle
        omega
    · simp at h
  · have hb : teamBudget ≠ "" ∧ (parseFloatJS teamBudget).leZero = false := by
      push_neg at h2
      exact ⟨h2.1, by simpa using h2.2⟩
    have hvalid : isValidFloatString teamBudget = true := by
      rcases hsan with he | hv
      · exact absurd he hb.1
      · exact hv
    obtain ⟨m, e, hme⟩ := validFloatString_parses teamBudget hvalid
    have hm : 0 < m := by
      have hz := hb.2
      rw [hme] at hz
      simp [JSFloat.leZero] at hz
      omega
    exact ⟨⟨fun _ => ⟨h1, m, e, hme, hm⟩, fun _ => rfl⟩,
      fun h => by simp at h, fun _ => rfl⟩

/-- Witness for C7: budget "100" is accepted and inserts; budget "-5" is
rejected with a validation toast and no insert. -/
theorem create_team_validation_witness :
    (handleCreateTeam [] 1 (some 2) ("CSK") ("100") none 3 4).inserted = true
    ∧ (handleCreateTeam [] 1 (some 2) ("CSK") ("-5") none 3 4).db = []
    ∧ ((handleCreateTeam [] 1 (some 2) ("CSK") ("-5") none 3 4).toast = teamNameToast
      ∨ (handleCreateTeam [] 1 (some 2) ("CSK") ("-5") none 3 4).toast = teamBudgetToast) := by
  have hpos := (create_team_validation [] 1 (some 2) ("CSK") ("100") none 3 4
      (Or.inr (by decide))).1.mpr ⟨by decide, 100, 0, by decide, by decide⟩
  have hneg := (create_team_validation [] 1 (some 2) ("CSK") ("-5") none 3 4
      (Or.inr (by decide))).2.1 (by decide)
  exact ⟨hpos, hneg.1, hneg.2⟩
